import Mathlib

set_option maxRecDepth 8192

/-!
Verification development for the Surf streaming orchestration core.

The definitions below are a shallow embedding of the TypeScript sources:

* `src/lib/tools/computer-tool.ts` — the unified computer tool
  (`executeComputerAction`), embedded as `ctSwitch` /
  `executeComputerActionAux` / `executeComputerAction`;
* the alternative E2B computer tool (`createE2BComputerTool.execute`),
  embedded as `e2bExecute`;
* `validateProviderConfig` / `providerRequiresApiKey` from the provider
  registry types module;
* the tool-calling stream loop of
  `src/lib/streaming/ai-sdk-streamer.ts` (`streamWithToolCalling` plus the
  `stream` wrapper), embedded as `aiLoop` / `aisdkStream`;
* the JSON-fallback stream loop of
  `src/lib/streaming/openai-compatible.ts`
  (`OpenAICompatibleComputerStreamer.executeAction` and `.stream`),
  embedded as `ocExecuteAction` / `ocGo` / `ocStream`.

External collaborators (the E2B desktop surface, the `ResolutionScaler`,
whose implementation file is not part of the provided sources, the model
provider and the screenshot capture) are passed in as explicit behaviour
functions, so every remote call the code would issue is recorded in a
trace and every way those collaborators can throw is a parameter.
JavaScript `number` coordinates are embedded as `Int` where the source
guards against `undefined` before using them, and as `Option Int` where
the source casts unchecked (`action.x as number`), `none` standing for
`undefined`/`NaN`.  JavaScript falsiness of `""` and `0` is made explicit
through `jsOr` / `jsOrInt`.  A thrown exception is an `Except.error`
carrying the exception message (`error.message`).
-/

/-- One event of the SSE protocol, parametrised by the action payload
type (the ai-sdk streamer reports the raw tool input, the
openai-compatible streamer reports the parsed JSON action object).
Only the variants relevant to the claims are embedded. -/
inductive SSEEvent (α : Type) where
  | reasoning (content : String)
  | action (a : α)
  | actionCompleted
  | error (content : String)
  | done (content : Option String)
deriving DecidableEq, Repr

/-- Boolean test for the `done` variant. -/
def isDoneE {α : Type} : SSEEvent α → Bool
  | SSEEvent.done _ => true
  | _ => false

/-- Boolean test for the `action` variant. -/
def isActE {α : Type} : SSEEvent α → Bool
  | SSEEvent.action _ => true
  | _ => false

/-- Boolean test for the `error` variant. -/
def isErrE {α : Type} : SSEEvent α → Bool
  | SSEEvent.error _ => true
  | _ => false

/-- Number of `done` events in a stream. -/
def dones {α : Type} (l : List (SSEEvent α)) : Nat :=
  l.countP (fun e => isDoneE e)

/-- Number of `action` events in a stream. -/
def acts {α : Type} (l : List (SSEEvent α)) : Nat :=
  l.countP (fun e => isActE e)

/-- Number of `error` events in a stream. -/
def errs {α : Type} (l : List (SSEEvent α)) : Nat :=
  l.countP (fun e => isErrE e)

/-- Holds when the first `done` event of the stream, if any, is its last
element: this is the "`Done` is terminal and unique" shape of the event
protocol. -/
def okSeq {α : Type} : List (SSEEvent α) → Bool
  | [] => true
  | SSEEvent.done _ :: rest => rest.isEmpty
  | _ :: rest => okSeq rest

/-- Holds when every `action` event is immediately followed by an
`actionCompleted` event. -/
def paired {α : Type} : List (SSEEvent α) → Bool
  | [] => true
  | SSEEvent.action _ :: SSEEvent.actionCompleted :: rest => paired rest
  | SSEEvent.action _ :: _ => false
  | _ :: rest => paired rest

/-- JavaScript `a || d` for strings: `undefined` and `""` are falsy. -/
def jsOr (o : Option String) (d : String) : String :=
  match o with
  | some s => if s = "" then d else s
  | none => d

/-- JavaScript `a || d` for numbers: `undefined` and `0` are falsy
(`NaN` is not representable in the embedding's integer coordinates). -/
def jsOrInt (o : Option Int) (d : Int) : Int :=
  match o with
  | some v => if v = 0 then d else v
  | none => d

/-- A key argument of the E2B tool's `press` action: the zod schema
allows a single key or an array of keys. -/
inductive JKey where
  | str (s : String)
  | arr (ks : List String)
deriving DecidableEq, Repr

/-- One call issued against the remote desktop capability surface by the
unified computer tool or the E2B tool.  Coordinates here are already in
device space (after `scaleToOriginalSpace`). -/
inductive DCall where
  | leftClick (x y : Int)
  | rightClick (x y : Int)
  | middleClick (x y : Int)
  | doubleClick (x y : Int)
  | write (text : String)
  | pressKeys (keys : List String)
  | pressKey (k : JKey)
  | moveMouse (x y : Int)
  | scroll (dir : String) (amount : Int)
  | drag (a b : Int × Int)
deriving DecidableEq, Repr

/-- A point of a drag path (`{x, y}` in the zod schema). -/
structure Point where
  x : Int
  y : Int
deriving DecidableEq, Repr

/-- The zod-validated input of the unified computer tool
(`ComputerToolParameters` in `computer-tool.ts`); the `action` tag is a
string so that the tool's `default` branch can be exercised.  Absent
optional fields are `none`. -/
structure ComputerToolParams where
  action : String
  x : Option Int
  y : Option Int
  text : Option String
  keys : Option (List String)
  button : Option String
  scroll_direction : Option String
  scroll_amount : Option Int
  path : Option (List Point)
  duration : Option Int
deriving DecidableEq, Repr

/-- Result of the unified computer tool
(`{ success, screenshot?, error? }`). -/
structure ExecResult where
  success : Bool
  screenshot : Option String
  error : Option String
deriving DecidableEq, Repr

/-- Outcome of the `switch` statement of `executeComputerAction`:
either the action completed (fall through to the screenshot capture) or
an early `return { success: false, error }` fired. -/
inductive SwitchRes where
  | completed
  | earlyError (msg : String)
deriving DecidableEq, Repr

/-- Issue a single desktop call and translate its result into a switch
outcome. -/
def oneCall (beh : DCall → Except String Unit) (c : DCall) :
    List DCall × Except String SwitchRes :=
  ([c], (beh c).map (fun _ => SwitchRes.completed))

/-- The `switch (params.action)` body of `executeComputerAction` in
`computer-tool.ts`, returning the trace of desktop calls issued together
with the outcome (an `Except.error` is a thrown exception from the
desktop surface).  The string dispatch mirrors the source's `case`
labels in order; the final branch is the source's `default`. -/
def ctSwitch (p : ComputerToolParams) (scale : Int × Int → Int × Int)
    (beh : DCall → Except String Unit) : List DCall × Except String SwitchRes :=
  if p.action = "click" then
    match p.x, p.y with
    | some x, some y =>
      let s := scale (x, y)
      let b := jsOr p.button "left"
      if b = "left" then oneCall beh (DCall.leftClick s.1 s.2)
      else if b = "right" then oneCall beh (DCall.rightClick s.1 s.2)
      else if b = "middle" then oneCall beh (DCall.middleClick s.1 s.2)
      else ([], Except.ok SwitchRes.completed)
    | _, _ => ([], Except.ok (SwitchRes.earlyError "Missing coordinates for click"))
  else if p.action = "double_click" then
    match p.x, p.y with
    | some x, some y =>
      let s := scale (x, y)
      oneCall beh (DCall.doubleClick s.1 s.2)
    | _, _ => ([], Except.ok (SwitchRes.earlyError "Missing coordinates for double_click"))
  else if p.action = "type" then
    match p.text with
    | some t =>
      if t = "" then ([], Except.ok (SwitchRes.earlyError "Missing text for type action"))
      else oneCall beh (DCall.write t)
    | none => ([], Except.ok (SwitchRes.earlyError "Missing text for type action"))
  else if p.action = "keypress" then
    match p.keys with
    | some ks =>
      if ks.isEmpty then ([], Except.ok (SwitchRes.earlyError "Missing keys for keypress action"))
      else oneCall beh (DCall.pressKeys ks)
    | none => ([], Except.ok (SwitchRes.earlyError "Missing keys for keypress action"))
  else if p.action = "scroll" then
    match p.x, p.y with
    | some x, some y =>
      let s := scale (x, y)
      match beh (DCall.moveMouse s.1 s.2) with
      | Except.error e => ([DCall.moveMouse s.1 s.2], Except.error e)
      | Except.ok _ =>
        let dir := jsOr p.scroll_direction "down"
        let amt := jsOrInt p.scroll_amount 1
        ([DCall.moveMouse s.1 s.2, DCall.scroll dir amt],
          (beh (DCall.scroll dir amt)).map (fun _ => SwitchRes.completed))
    | _, _ => ([], Except.ok (SwitchRes.earlyError "Missing coordinates for scroll"))
  else if p.action = "move" then
    match p.x, p.y with
    | some x, some y =>
      let s := scale (x, y)
      oneCall beh (DCall.moveMouse s.1 s.2)
    | _, _ => ([], Except.ok (SwitchRes.earlyError "Missing coordinates for move"))
  else if p.action = "drag" then
    match p.path with
    | some l =>
      if l.length < 2 then
        ([], Except.ok (SwitchRes.earlyError "Drag requires at least 2 path points"))
      else
        let p0 := l.headD ⟨0, 0⟩
        let pl := l.getLastD ⟨0, 0⟩
        oneCall beh (DCall.drag (scale (p0.x, p0.y)) (scale (pl.x, pl.y)))
    | none => ([], Except.ok (SwitchRes.earlyError "Drag requires at least 2 path points"))
  else if p.action = "wait" then ([], Except.ok SwitchRes.completed)
  else if p.action = "screenshot" then ([], Except.ok SwitchRes.completed)
  else ([], Except.ok (SwitchRes.earlyError ("Unknown action: " ++ p.action)))

/-- `executeComputerAction` of `computer-tool.ts` with the trace of
desktop calls exposed.  `shot` is the scaler's `takeScreenshot` already
composed with base64 encoding (an `Except.error` is a capture throw).
The surrounding `try`/`catch` maps any throw to
`{ success: false, error: message }`. -/
def executeComputerActionAux (p : ComputerToolParams)
    (scale : Int × Int → Int × Int) (beh : DCall → Except String Unit)
    (shot : Except String String) : List DCall × ExecResult :=
  match ctSwitch p scale beh with
  | (tr, Except.error m) => (tr, ⟨false, none, some m⟩)
  | (tr, Except.ok (SwitchRes.earlyError m)) => (tr, ⟨false, none, some m⟩)
  | (tr, Except.ok SwitchRes.completed) =>
    match shot with
    | Except.error m => (tr, ⟨false, none, some m⟩)
    | Except.ok b64 => (tr, ⟨true, some ("data:image/png;base64," ++ b64), none⟩)

/-- The result component of `executeComputerActionAux`. -/
def executeComputerAction (p : ComputerToolParams)
    (scale : Int × Int → Int × Int) (beh : DCall → Except String Unit)
    (shot : Except String String) : ExecResult :=
  (executeComputerActionAux p scale beh shot).2

/-- Convenience constructor for a bare click action. -/
def clickAt (x y : Int) : ComputerToolParams :=
  ⟨"click", some x, some y, none, none, none, none, none, none, none⟩

/-- Convenience constructor for a bare drag action. -/
def dragParams (l : List Point) : ComputerToolParams :=
  ⟨"drag", none, none, none, none, none, none, none, some l, none⟩

/-- Convenience constructor for a bare screenshot action. -/
def screenshotParams : ComputerToolParams :=
  ⟨"screenshot", none, none, none, none, none, none, none, none, none⟩

/-- A scaler that doubles both coordinates, matching the mock
`scaleToOriginalSpace: ([x, y]) => [x * 2, y * 2]` used by the
repository's own unit tests. -/
def dblScale : Int × Int → Int × Int := fun c => (2 * c.1, 2 * c.2)

/-- The identity scaler, matching the mock used by the repository's
out-of-bounds test. -/
def idScale : Int × Int → Int × Int := fun c => c

/-- A desktop surface on which every call succeeds. -/
def behOk : DCall → Except String Unit := fun _ => Except.ok ()

/-- A desktop surface on which every call throws with message `boom`. -/
def behBoom : DCall → Except String Unit := fun _ => Except.error "boom"

/-- Prefix test on character lists (no library dependence). -/
def isPref : List Char → List Char → Bool
  | [], _ => true
  | _ :: _, [] => false
  | a :: as, b :: bs => a == b && isPref as bs

/-- Substring test on character lists: used to formalise "the error
message carries the action tag". -/
def hasSub (needle hay : List Char) : Bool :=
  match hay with
  | [] => needle.isEmpty
  | _ :: t => isPref needle hay || hasSub needle t

/-- Action tags of the alternative E2B computer tool's zod enum. -/
inductive E2BTag where
  | screenshot
  | left_click
  | right_click
  | double_click
  | typeText
  | press
  | scroll
  | move_mouse
  | drag
deriving DecidableEq, Repr

/-- Input of the alternative E2B computer tool (`computerActionSchema`);
`typeText` embeds the source's `"type"` tag, which collides with a
keyword-adjacent name.  Absent optional fields are `none`. -/
structure E2BInput where
  action : E2BTag
  x : Option Int
  y : Option Int
  text : Option String
  key : Option JKey
  scroll_direction : Option String
  scroll_amount : Option Int
  from_coords : Option (Int × Int)
  to_coords : Option (Int × Int)
deriving DecidableEq, Repr

/-- Result of the alternative E2B computer tool
(`ComputerActionResult`); `action_done` carries the optional echo fields
the source attaches per action. -/
inductive E2BResult where
  | screenshot (data : String)
  | action_done (action : String) (x y : Option Int) (key : Option JKey)
  | action_error (message : String)
deriving DecidableEq, Repr

/-- The `execute` body of `createE2BComputerTool`: there is no
`try`/`catch`, so a desktop throw escapes as `Except.error`.  `shot`
composes `takeScreenshot` with base64 encoding. -/
def e2bExecute (inp : E2BInput) (scale : Int × Int → Int × Int)
    (beh : DCall → Except String Unit) (shot : Except String String) :
    List DCall × Except String E2BResult :=
  match inp.action with
  | E2BTag.screenshot =>
    match shot with
    | Except.error e => ([], Except.error e)
    | Except.ok b => ([], Except.ok (E2BResult.screenshot b))
  | E2BTag.left_click =>
    match inp.x, inp.y with
    | some x, some y =>
      let s := scale (x, y)
      ([DCall.leftClick s.1 s.2],
        (beh (DCall.leftClick s.1 s.2)).map
          (fun _ => E2BResult.action_done "left_click" (some x) (some y) none))
    | _, _ => ([], Except.ok (E2BResult.action_error "x and y required"))
  | E2BTag.right_click =>
    match inp.x, inp.y with
    | some x, some y =>
      let s := scale (x, y)
      ([DCall.rightClick s.1 s.2],
        (beh (DCall.rightClick s.1 s.2)).map
          (fun _ => E2BResult.action_done "right_click" (some x) (some y) none))
    | _, _ => ([], Except.ok (E2BResult.action_error "x and y required"))
  | E2BTag.double_click =>
    match inp.x, inp.y with
    | some x, some y =>
      let s := scale (x, y)
      ([DCall.doubleClick s.1 s.2],
        (beh (DCall.doubleClick s.1 s.2)).map
          (fun _ => E2BResult.action_done "double_click" (some x) (some y) none))
    | _, _ => ([], Except.ok (E2BResult.action_error "x and y required"))
  | E2BTag.typeText =>
    match inp.text with
    | some t =>
      if t = "" then ([], Except.ok (E2BResult.action_error "text required"))
      else
        ([DCall.write t],
          (beh (DCall.write t)).map (fun _ => E2BResult.action_done "type" none none none))
    | none => ([], Except.ok (E2BResult.action_error "text required"))
  | E2BTag.press =>
    match inp.key with
    | some (JKey.str "") => ([], Except.ok (E2BResult.action_error "key required"))
    | some k =>
      ([DCall.pressKey k],
        (beh (DCall.pressKey k)).map
          (fun _ => E2BResult.action_done "press" none none (some k)))
    | none => ([], Except.ok (E2BResult.action_error "key required"))
  | E2BTag.scroll =>
    let dir := inp.scroll_direction.getD "down"
    let amt := inp.scroll_amount.getD 3
    ([DCall.scroll dir amt],
      (beh (DCall.scroll dir amt)).map
        (fun _ => E2BResult.action_done "scroll" none none none))
  | E2BTag.move_mouse =>
    match inp.x, inp.y with
    | some x, some y =>
      let s := scale (x, y)
      ([DCall.moveMouse s.1 s.2],
        (beh (DCall.moveMouse s.1 s.2)).map
          (fun _ => E2BResult.action_done "move_mouse" (some x) (some y) none))
    | _, _ => ([], Except.ok (E2BResult.action_error "x and y required"))
  | E2BTag.drag =>
    match inp.from_coords, inp.to_coords with
    | some f, some t =>
      let fs := scale f
      let ts := scale t
      ([DCall.drag fs ts],
        (beh (DCall.drag fs ts)).map
          (fun _ => E2BResult.action_done "drag" none none none))
    | _, _ => ([], Except.ok (E2BResult.action_error "from_coords and to_coords required"))

/-- A bare `move_mouse` input for the E2B tool. -/
def e2bMoveMouse (x y : Int) : E2BInput :=
  ⟨E2BTag.move_mouse, some x, some y, none, none, none, none, none, none⟩

/-- Provider configuration as consumed by the ai-sdk streamer; the empty
string stands for an absent (falsy) field. -/
structure ProviderConfig where
  type : String
  model : String
  apiKey : String
  baseUrl : String
  useNativeComputerUse : Bool
deriving DecidableEq, Repr

/-- The provider-registry predicate
`!["custom", "ollama"].includes(type)`. -/
def providerRequiresApiKey (t : String) : Bool :=
  !(["custom", "ollama"].contains t)

/-- The provider-registry function `validateProviderConfig`: returns the
error message of the first failing check, or `none` when the
configuration is valid. -/
def validateProviderConfig (c : ProviderConfig) : Option String :=
  if c.model = "" then some "Model is required for provider"
  else if c.type = "custom" ∧ c.baseUrl = "" then
    some "Base URL is required for custom providers"
  else if providerRequiresApiKey c.type ∧ c.apiKey = "" then
    some "API key is required for provider"
  else none

/-- Events of the ai-sdk streamer carry the raw tool input as payload. -/
abbrev AIEv := SSEEvent ComputerToolParams

/-- One chunk of the `streamText` full stream as dispatched by
`streamWithToolCalling`; `other` stands for every chunk type the
source's `switch` has no case for (such as step boundaries), and
`toolResult` carries the executed tool's output, which the source only
logs. -/
inductive AIChunk where
  | textDelta (text : String)
  | toolCall (input : ComputerToolParams)
  | toolResult (output : ExecResult)
  | errorChunk (message : Option String)
  | finish
  | other
deriving DecidableEq, Repr

/-- The message of the `Done` event emitted on observed cancellation
(both streamers use the same text). -/
def stopMsg : String := "Generation stopped by user"

/-- The chunk-processing loop of `streamWithToolCalling`: the
cancellation signal is checked before each chunk (`abort i` is its value
at the i-th check), a `tool-call` chunk yields the action and an
unconditional `actionCompleted`, an `error` chunk yields an `error`
event and continues, and `finish` yields the terminal `done`.  A stream
that ends without a `finish` chunk ends the generator with no `done`. -/
def aiLoop (abort : Nat → Bool) : List AIChunk → Nat → List AIEv
  | [], _ => []
  | c :: rest, i =>
    if abort i then [SSEEvent.done (some stopMsg)]
    else
      match c with
      | AIChunk.textDelta t => SSEEvent.reasoning t :: aiLoop abort rest (i + 1)
      | AIChunk.toolCall p =>
        SSEEvent.action p :: SSEEvent.actionCompleted :: aiLoop abort rest (i + 1)
      | AIChunk.toolResult _ => aiLoop abort rest (i + 1)
      | AIChunk.errorChunk m =>
        SSEEvent.error (jsOr m "An error occurred") :: aiLoop abort rest (i + 1)
      | AIChunk.finish => [SSEEvent.done none]
      | AIChunk.other => aiLoop abort rest (i + 1)

/-- The `stream` method of `AISDKComputerStreamer`: configuration
validation throws, `createProviderInstance` may throw (`createErr`), the
initial screenshot may throw (`initShot`), and all throws are caught by
the surrounding `try`/`catch` and surfaced as a single `error` event.
`nativeCU` abstracts `getProviderCapabilities(...).hasNativeComputerUse`
and `nativeEvents` the delegated native streamer's output (those
streamers live outside the embedded sources). -/
def aisdkStream (cfg : ProviderConfig) (createErr : Option String)
    (initShot : Except String String) (nativeCU : Bool)
    (nativeEvents : List AIEv) (chunks : List AIChunk)
    (abort : Nat → Bool) : List AIEv :=
  match validateProviderConfig cfg with
  | some msg => [SSEEvent.error msg]
  | none =>
    match createErr with
    | some m => [SSEEvent.error m]
    | none =>
      match initShot with
      | Except.error m => [SSEEvent.error m]
      | Except.ok _ =>
        if nativeCU && cfg.useNativeComputerUse then nativeEvents
        else aiLoop abort chunks 0

/-- The never-aborted cancellation signal. -/
def noAbort : Nat → Bool := fun _ => false

/-- The parsed JSON action object of the openai-compatible streamer
(`Record<string, unknown>` in the source, read through unchecked `as`
casts); `none` stands for an absent field. -/
structure OCAction where
  type : String
  x : Option Int
  y : Option Int
  button : Option String
  text : Option String
  keys : Option (List String)
  key : Option String
  direction : Option String
  scroll_y : Option Int
  amount : Option Int
  duration : Option Int
  start_x : Option Int
  start_y : Option Int
  end_x : Option Int
  end_y : Option Int
deriving DecidableEq, Repr

/-- An action object with only a type tag. -/
def ocActionOfType (t : String) : OCAction :=
  ⟨t, none, none, none, none, none, none, none, none, none, none, none, none, none, none⟩

/-- One call issued against the desktop surface by the openai-compatible
executor.  Coordinates are `Option Int` because the source passes the
unchecked cast `action.x as number` straight to the scaler, so
`undefined` (embedded as `none`) flows through. -/
inductive OCCall where
  | doubleClick (x y : Option Int)
  | leftClick (x y : Option Int)
  | rightClick (x y : Option Int)
  | middleClick (x y : Option Int)
  | write (text : Option String)
  | pressCombo (combo : String)
  | moveMouse (x y : Option Int)
  | scroll (dir : String) (amount : Int)
  | drag (a b : Option Int × Option Int)
deriving DecidableEq, Repr

/-- The `executeAction` method of `OpenAICompatibleComputerStreamer`:
dispatch on `action.type` in source order, with the source's `default`
branch only logging a warning (so it succeeds with no call).  `scale` is
the scaler's `scaleToOriginalSpace` on possibly-undefined coordinates. -/
def ocExecuteAction (a : OCAction)
    (scale : Option Int × Option Int → Option Int × Option Int)
    (beh : OCCall → Except String Unit) : List OCCall × Except String Unit :=
  if a.type = "screenshot" then ([], Except.ok ())
  else if a.type = "double_click" then
    let c := scale (a.x, a.y)
    ([OCCall.doubleClick c.1 c.2], beh (OCCall.doubleClick c.1 c.2))
  else if a.type = "click" then
    let c := scale (a.x, a.y)
    let b := jsOr a.button "left"
    if b = "left" then ([OCCall.leftClick c.1 c.2], beh (OCCall.leftClick c.1 c.2))
    else if b = "right" then ([OCCall.rightClick c.1 c.2], beh (OCCall.rightClick c.1 c.2))
    else if b = "middle" ∨ b = "wheel" then
      ([OCCall.middleClick c.1 c.2], beh (OCCall.middleClick c.1 c.2))
    else ([], Except.ok ())
  else if a.type = "type" then ([OCCall.write a.text], beh (OCCall.write a.text))
  else if a.type = "keypress" then
    let combo :=
      match a.keys with
      | some ks => String.intercalate "+" ks
      | none => (a.key).getD ""
    ([OCCall.pressCombo combo], beh (OCCall.pressCombo combo))
  else if a.type = "move" then
    let c := scale (a.x, a.y)
    ([OCCall.moveMouse c.1 c.2], beh (OCCall.moveMouse c.1 c.2))
  else if a.type = "scroll" then
    let sx := jsOrInt a.x 0
    let sy := jsOrInt a.y 0
    let c := scale (some sx, some sy)
    let amt := jsOrInt a.scroll_y (jsOrInt a.amount 3)
    let dir := jsOr a.direction (if amt < 0 then "up" else "down")
    match beh (OCCall.moveMouse c.1 c.2) with
    | Except.error e => ([OCCall.moveMouse c.1 c.2], Except.error e)
    | Except.ok _ =>
      let d := if dir = "up" then "up" else "down"
      ([OCCall.moveMouse c.1 c.2, OCCall.scroll d (Int.ofNat amt.natAbs)],
        beh (OCCall.scroll d (Int.ofNat amt.natAbs)))
  else if a.type = "wait" then ([], Except.ok ())
  else if a.type = "drag" then
    let sx := jsOrInt a.start_x 0
    let sy := jsOrInt a.start_y 0
    let ex := jsOrInt a.end_x 0
    let ey := jsOrInt a.end_y 0
    let sc := scale (some sx, some sy)
    let ec := scale (some ex, some ey)
    ([OCCall.drag sc ec], beh (OCCall.drag sc ec))
  else ([], Except.ok ())

/-- Events of the openai-compatible streamer carry the parsed JSON
action object as payload. -/
abbrev OCEv := SSEEvent OCAction

/-- One model turn of the JSON-fallback loop, as observed by the
streamer: the chat-completions call threw (`apiError` with the
exception's message), the reply was not parseable JSON (`parseFail` with
the raw assistant text), the reply parsed with no action or a `done`
action (`finishTurn`), or the reply parsed to an action (`act`). -/
inductive OCTurn where
  | apiError (message : String)
  | parseFail (content : String)
  | finishTurn (reasoning : Option String) (content : String)
  | act (reasoning : Option String) (a : OCAction)
deriving Repr

/-- The environment of one openai-compatible session: the configured
model id, the scaler, the desktop behaviour, the initial and per-step
screenshot captures, the model's script of turns and the cancellation
signal as observed at each top-of-loop check. -/
structure OCEnv where
  modelId : String
  scale : Option Int × Option Int → Option Int × Option Int
  beh : OCCall → Except String Unit
  initShot : Except String String
  shots : Nat → Except String String
  script : Nat → OCTurn
  abort : Nat → Bool

/-- The loop bound `maxIterations = 50` of the openai-compatible
streamer (also the `stepCountIs(50)` bound the ai-sdk streamer passes to
the SDK). -/
def maxIterations : Nat := 50

/-- The streamer's outer `catch` message
(`An error occurred with the AI service (modelId). ...`). -/
def ocCatchMsg (modelId : String) : String :=
  "An error occurred with the AI service (" ++ modelId ++
    "). Please check your configuration and try again."

/-- The `if (parsed?.reasoning) yield REASONING` step (truthiness: an
absent or empty reasoning string yields nothing). -/
def reasonEvts (r : Option String) : List OCEv :=
  match r with
  | some s => if s = "" then [] else [SSEEvent.reasoning s]
  | none => []

/-- The content of the reasoning event of the done branch
(`parsed?.reasoning || assistantContent || "Task completed"`). -/
def doneReason (r : Option String) (content : String) : String :=
  jsOr r (if content = "" then "Task completed" else content)

/-- The post-loop tail of `stream`: after the `while` loop ends by
`break` or by its condition, `if (iteration >= maxIterations)` yields a
reasoning note and a second-chance `done`. -/
def ocPost (iter : Nat) : List OCEv :=
  if maxIterations ≤ iter then
    [SSEEvent.reasoning "Maximum number of iterations reached.", SSEEvent.done none]
  else []

/-- The `while (iteration < maxIterations)` loop of
`OpenAICompatibleComputerStreamer.stream`, with `fuel` the remaining
passes (`fuel + iter = maxIterations` along every reachable call, so the
fuel check and the source's condition coincide).  `iter` is the number
of completed passes.  Branches, in source order: observed cancellation
yields the stop `done` and breaks; an API error yields `error` then
`done` and returns (skipping the post-loop tail); a parse failure yields
the raw text as reasoning and continues; a missing/`done` action yields
the reasoning and a `done` and breaks into the post-loop tail; an action
turn yields the action, executes it (a throw escapes to the outer catch,
which yields one `error` and ends the generator), yields
`actionCompleted`, captures a screenshot (same catch on throw) and
continues. -/
def ocGo (env : OCEnv) : Nat → Nat → List OCEv
  | 0, iter => ocPost iter
  | fuel + 1, iter =>
    if iter < maxIterations then
      if env.abort iter then [SSEEvent.done (some stopMsg)]
      else
        match env.script iter with
        | OCTurn.apiError m =>
          [SSEEvent.error ("API error from " ++ env.modelId ++ ": " ++ m),
            SSEEvent.done none]
        | OCTurn.parseFail content =>
          SSEEvent.reasoning content :: ocGo env fuel (iter + 1)
        | OCTurn.finishTurn r content =>
          reasonEvts r ++
            [SSEEvent.reasoning (doneReason r content), SSEEvent.done none] ++
            ocPost (iter + 1)
        | OCTurn.act r a =>
          reasonEvts r ++
            SSEEvent.action a ::
              (match (ocExecuteAction a env.scale env.beh).2 with
               | Except.error _ => [SSEEvent.error (ocCatchMsg env.modelId)]
               | Except.ok _ =>
                 SSEEvent.actionCompleted ::
                   (match env.shots iter with
                    | Except.error _ => [SSEEvent.error (ocCatchMsg env.modelId)]
                    | Except.ok _ => ocGo env fuel (iter + 1)))
    else ocPost iter

/-- The full `stream` generator of the openai-compatible streamer: the
initial screenshot is taken inside the outer `try`, so a capture throw
yields the single catch `error` event; otherwise the loop runs from
iteration 0 with the full budget. -/
def ocStream (env : OCEnv) : List OCEv :=
  match env.initShot with
  | Except.error _ => [SSEEvent.error (ocCatchMsg env.modelId)]
  | Except.ok _ => ocGo env maxIterations 0

/-- A desktop surface for the openai-compatible executor on which every
call succeeds. -/
def ocBehOk : OCCall → Except String Unit := fun _ => Except.ok ()

/-- A desktop surface for the openai-compatible executor on which every
call throws with message `io`. -/
def ocBehBoom : OCCall → Except String Unit := fun _ => Except.error "io"

/-- The identity scaler on possibly-undefined coordinates. -/
def ocIdScale : Option Int × Option Int → Option Int × Option Int := fun c => c

/-- Number of tool-call chunks the `streamWithToolCalling` loop would
reach: counting stops at the first `finish` chunk, where the loop
returns. -/
def tcCount : List AIChunk → Nat
  | [] => 0
  | AIChunk.finish :: _ => 0
  | AIChunk.toolCall _ :: r => tcCount r + 1
  | _ :: r => tcCount r

/-- Pass `i` of an openai-compatible session is an action turn whose
execution and follow-up screenshot both succeed. -/
def ocActStep (env : OCEnv) (i : Nat) : Prop :=
  ∃ r a, env.script i = OCTurn.act r a ∧
    (ocExecuteAction a env.scale env.beh).2 = Except.ok () ∧
    ∃ s, env.shots i = Except.ok s

/-- Pass `i` of an openai-compatible session continues the loop: either
a parse failure (corrective reprompt) or a fully successful action
turn. -/
def ocContinues (env : OCEnv) (j : Nat) : Prop :=
  (∃ c, env.script j = OCTurn.parseFail c) ∨ ocActStep env j

/-- The closed action vocabulary of the unified computer tool
(`ComputerActionSchema`). -/
def ctActionTags : List String :=
  ["click", "double_click", "type", "keypress", "scroll", "move", "drag",
    "wait", "screenshot"]

/-- The action tags handled by the openai-compatible executor's
`switch`. -/
def ocActionTags : List String :=
  ["screenshot", "double_click", "click", "type", "keypress", "move",
    "scroll", "wait", "drag"]

/-- A parsed screenshot action (a no-op for the executor, so every pass
of a session scripted with it succeeds). -/
def actScreenshot : OCAction := ocActionOfType "screenshot"

/-- Session in which the model performs an action on each of the first
49 passes and signals completion exactly on the 50th, budget-exhausting
pass. -/
def envC2 : OCEnv :=
  ⟨"m", ocIdScale, ocBehOk, Except.ok "S0", fun _ => Except.ok "S0",
    fun i => if i < 49 then OCTurn.act none actScreenshot
             else OCTurn.finishTurn none "done",
    noAbort⟩

/-- Session in which the model proposes an action on every pass and
every execution and screenshot succeeds. -/
def envC4 : OCEnv :=
  ⟨"m", ocIdScale, ocBehOk, Except.ok "S0", fun _ => Except.ok "S0",
    fun _ => OCTurn.act none actScreenshot, noAbort⟩

/-- Session in which cancellation is observed at the second top-of-loop
check (after one successful action pass). -/
def envC5 : OCEnv :=
  ⟨"m", ocIdScale, ocBehOk, Except.ok "S0", fun _ => Except.ok "S0",
    fun _ => OCTurn.act none actScreenshot, fun i => decide (1 ≤ i)⟩

/-- Session in which the model's first action has the unknown tag
`fly` and the model then signals completion. -/
def envC9 : OCEnv :=
  ⟨"m", ocIdScale, ocBehOk, Except.ok "S0", fun _ => Except.ok "S0",
    fun i => if i = 0 then OCTurn.act none (ocActionOfType "fly")
             else OCTurn.finishTurn none "done",
    noAbort⟩

/-- A parsed click action with no coordinates (the executor passes the
undefined coordinates through the scaler unchecked). -/
def ocClickA : OCAction := ocActionOfType "click"

/-- Session whose first action turn's desktop call throws. -/
def envC3w : OCEnv :=
  ⟨"m", ocIdScale, ocBehBoom, Except.ok "S0", fun _ => Except.ok "S0",
    fun _ => OCTurn.act none ocClickA, noAbort⟩

/-- The tool input of the failing tool call of the C3 counterexample. -/
def pC3 : ComputerToolParams := clickAt 3 4

/-- A failed tool execution output (`success: false` with an error
message and no screenshot), as produced by the unified computer tool and
carried in the `tool-result` chunk. -/
def failOut : ExecResult := ⟨false, none, some "element not found"⟩

/-- Chunk stream in which the model issues one tool call whose
execution fails, then the vendor stream finishes. -/
def chunksC3 : List AIChunk :=
  [AIChunk.toolCall pC3, AIChunk.toolResult failOut, AIChunk.finish]

/-- A custom-provider configuration with a model and credential but no
base URL. -/
def cfgCustomNoBase : ProviderConfig :=
  ⟨"custom", "test-model", "sk-key", "", false⟩

theorem okSeq_cons {α : Type} (e : SSEEvent α) (l : List (SSEEvent α))
    (h : isDoneE e = false) : okSeq (e :: l) = okSeq l := by
  cases e <;> simp [okSeq, isDoneE] at h ⊢

theorem dones_cons_eq_zero {α : Type} {e : SSEEvent α} {l : List (SSEEvent α)}
    (h : dones (e :: l) = 0) : isDoneE e = false ∧ dones l = 0 := by
  have h2 : l.countP (fun x => isDoneE x) + (if isDoneE e = true then 1 else 0) = 0 := by
    simpa [dones, List.countP_cons] using h
  by_cases hd : isDoneE e = true
  · rw [if_pos hd] at h2; omega
  · refine ⟨by simpa using hd, ?_⟩
    rw [if_neg hd] at h2
    simpa [dones] using h2

theorem okSeq_append {α : Type} (E l : List (SSEEvent α)) (h : dones E = 0) :
    okSeq (E ++ l) = okSeq l := by
  induction E with
  | nil => rfl
  | cons e E ih =>
    obtain ⟨he, hE⟩ := dones_cons_eq_zero h
    rw [List.cons_append, okSeq_cons _ _ he, ih hE]

theorem dones_reasonEvts (r : Option String) : dones (reasonEvts r) = 0 := by
  rcases r with _ | s
  · rfl
  · by_cases hs : s = "" <;>
      simp [reasonEvts, hs, dones, List.countP_cons, isDoneE]

theorem acts_reasonEvts (r : Option String) : acts (reasonEvts r) = 0 := by
  rcases r with _ | s
  · rfl
  · by_cases hs : s = "" <;>
      simp [reasonEvts, hs, acts, List.countP_cons, isActE]

theorem errs_reasonEvts (r : Option String) : errs (reasonEvts r) = 0 := by
  rcases r with _ | s
  · rfl
  · by_cases hs : s = "" <;>
      simp [reasonEvts, hs, errs, List.countP_cons, isErrE]

theorem acts_ocPost (iter : Nat) : acts (ocPost iter) = 0 := by
  unfold ocPost; split <;> simp [acts, List.countP_cons, isActE]

theorem okSeq_ocPost (iter : Nat) : okSeq (ocPost iter) = true := by
  unfold ocPost; split <;> simp [okSeq]

theorem dones_ocPost_eq_one {iter : Nat} (h : maxIterations ≤ iter) :
    dones (ocPost iter) = 1 := by
  unfold ocPost; rw [if_pos h]; simp [dones, List.countP_cons, isDoneE]

theorem aiLoop_okSeq (abort : Nat → Bool) :
    ∀ (chunks : List AIChunk) (i : Nat), okSeq (aiLoop abort chunks i) = true := by
  intro chunks
  induction chunks with
  | nil => intro i; rfl
  | cons c rest ih =>
    intro i
    by_cases hab : abort i
    · simp [aiLoop, hab, okSeq]
    · cases c <;> simp [aiLoop, hab, okSeq, ih (i + 1)]

theorem aiLoop_paired (abort : Nat → Bool) :
    ∀ (chunks : List AIChunk) (i : Nat), paired (aiLoop abort chunks i) = true := by
  intro chunks
  induction chunks with
  | nil => intro i; rfl
  | cons c rest ih =>
    intro i
    by_cases hab : abort i
    · simp [aiLoop, hab, paired]
    · cases c <;> simp [aiLoop, hab, paired, ih (i + 1)]

theorem acts_cons {α : Type} (e : SSEEvent α) (l : List (SSEEvent α)) :
    acts (e :: l) = acts l + (if isActE e = true then 1 else 0) := by
  simp [acts, List.countP_cons]

theorem acts_nil {α : Type} : acts ([] : List (SSEEvent α)) = 0 := rfl

theorem aiLoop_acts_le (abort : Nat → Bool) :
    ∀ (chunks : List AIChunk) (i : Nat), acts (aiLoop abort chunks i) ≤ tcCount chunks := by
  intro chunks
  induction chunks with
  | nil => intro i; simp [aiLoop, acts]
  | cons c rest ih =>
    intro i
    by_cases hab : abort i
    · cases c <;>
        simp [aiLoop, hab, tcCount, acts_cons, acts_nil, isActE]
    · have h2 := ih (i + 1)
      cases c <;>
        (try simp [aiLoop, hab, tcCount, acts_cons, acts_nil, isActE]) <;>
        omega

theorem aiLoop_acts_noAbort :
    ∀ (chunks : List AIChunk) (i : Nat), acts (aiLoop noAbort chunks i) = tcCount chunks := by
  intro chunks
  induction chunks with
  | nil => intro i; rfl
  | cons c rest ih =>
    intro i
    have h2 := ih (i + 1)
    cases c <;>
      (try simp [aiLoop, noAbort, tcCount, acts_cons, acts_nil, isActE]) <;>
      omega

theorem aiLoop_cancel (abort : Nat → Bool) :
    ∀ (pre : List AIChunk) (c : AIChunk) (post : List AIChunk) (i : Nat),
      (∀ j, j < pre.length → abort (i + j) = false) →
      (∀ ch ∈ pre, ch ≠ AIChunk.finish) →
      abort (i + pre.length) = true →
      ∃ E, aiLoop abort (pre ++ c :: post) i = E ++ [SSEEvent.done (some stopMsg)] ∧
        dones E = 0 := by
  intro pre
  induction pre with
  | nil =>
    intro c post i _ _ hab
    simp at hab
    refine ⟨[], ?_, rfl⟩
    simp [aiLoop, hab]
  | cons ch pre ih =>
    intro c post i hpre hnf hab
    have h0 : abort i = false := by simpa using hpre 0 (by simp)
    have hpre2 : ∀ j, j < pre.length → abort (i + 1 + j) = false := by
      intro j hj
      have := hpre (j + 1) (by simpa using Nat.succ_lt_succ hj)
      simpa [Nat.add_assoc, Nat.add_comm 1 j] using this
    have hnf2 : ∀ x ∈ pre, x ≠ AIChunk.finish := fun x hx => hnf x (by simp [hx])
    have hab2 : abort (i + 1 + pre.length) = true := by
      simpa [Nat.add_assoc, Nat.add_comm 1 pre.length] using hab
    obtain ⟨E, hE, hD⟩ := ih c post (i + 1) hpre2 hnf2 hab2
    cases ch with
    | textDelta t =>
      exact ⟨SSEEvent.reasoning t :: E,
        by simp [aiLoop, h0, hE],
        by simp [dones, List.countP_cons, isDoneE] at hD ⊢; exact hD⟩
    | toolCall p =>
      exact ⟨SSEEvent.action p :: SSEEvent.actionCompleted :: E,
        by simp [aiLoop, h0, hE],
        by simp [dones, List.countP_cons, isDoneE] at hD ⊢; exact hD⟩
    | toolResult o =>
      exact ⟨E, by simp [aiLoop, h0, hE], hD⟩
    | errorChunk m =>
      exact ⟨SSEEvent.error (jsOr m "An error occurred") :: E,
        by simp [aiLoop, h0, hE],
        by simp [dones, List.countP_cons, isDoneE] at hD ⊢; exact hD⟩
    | finish => exact absurd rfl (hnf AIChunk.finish (by simp))
    | other => exact ⟨E, by simp [aiLoop, h0, hE], hD⟩

theorem ocGo_zero (env : OCEnv) (iter : Nat) : ocGo env 0 iter = ocPost iter := rfl

theorem ocGo_eq_abort (env : OCEnv) (f iter : Nat) (hlt : iter < maxIterations)
    (hab : env.abort iter = true) :
    ocGo env (f + 1) iter = [SSEEvent.done (some stopMsg)] := by
  rw [ocGo, if_pos hlt, hab]
  rfl

theorem ocGo_eq_apiError (env : OCEnv) (f iter : Nat) (m : String)
    (hlt : iter < maxIterations) (hab : env.abort iter = false)
    (hsc : env.script iter = OCTurn.apiError m) :
    ocGo env (f + 1) iter =
      [SSEEvent.error ("API error from " ++ env.modelId ++ ": " ++ m),
        SSEEvent.done none] := by
  rw [ocGo, if_pos hlt, hab, hsc]
  rfl

theorem ocGo_eq_parseFail (env : OCEnv) (f iter : Nat) (content : String)
    (hlt : iter < maxIterations) (hab : env.abort iter = false)
    (hsc : env.script iter = OCTurn.parseFail content) :
    ocGo env (f + 1) iter = SSEEvent.reasoning content :: ocGo env f (iter + 1) := by
  rw [ocGo, if_pos hlt, hab, hsc]
  rfl

theorem ocGo_eq_finishTurn (env : OCEnv) (f iter : Nat) (r : Option String)
    (content : String) (hlt : iter < maxIterations) (hab : env.abort iter = false)
    (hsc : env.script iter = OCTurn.finishTurn r content) :
    ocGo env (f + 1) iter =
      reasonEvts r ++
        [SSEEvent.reasoning (doneReason r content), SSEEvent.done none] ++
        ocPost (iter + 1) := by
  rw [ocGo, if_pos hlt, hab, hsc]
  rfl

theorem ocGo_eq_act (env : OCEnv) (f iter : Nat) (r : Option String) (a : OCAction)
    (hlt : iter < maxIterations) (hab : env.abort iter = false)
    (hsc : env.script iter = OCTurn.act r a) :
    ocGo env (f + 1) iter =
      reasonEvts r ++
        SSEEvent.action a ::
          (match (ocExecuteAction a env.scale env.beh).2 with
           | Except.error _ => [SSEEvent.error (ocCatchMsg env.modelId)]
           | Except.ok _ =>
             SSEEvent.actionCompleted ::
               (match env.shots iter with
                | Except.error _ => [SSEEvent.error (ocCatchMsg env.modelId)]
                | Except.ok _ => ocGo env f (iter + 1))) := by
  rw [ocGo, if_pos hlt, hab, hsc]
  rfl

theorem okSeq_reasoning {α : Type} (s : String) (l : List (SSEEvent α)) :
    okSeq (SSEEvent.reasoning s :: l) = okSeq l := rfl

theorem okSeq_action {α : Type} (a : α) (l : List (SSEEvent α)) :
    okSeq (SSEEvent.action a :: l) = okSeq l := rfl

theorem okSeq_completed {α : Type} (l : List (SSEEvent α)) :
    okSeq (SSEEvent.actionCompleted :: l) = okSeq l := rfl

theorem okSeq_err {α : Type} (s : String) (l : List (SSEEvent α)) :
    okSeq (SSEEvent.error s :: l) = okSeq l := rfl

theorem okSeq_done {α : Type} (m : Option String) (l : List (SSEEvent α)) :
    okSeq (SSEEvent.done m :: l) = l.isEmpty := rfl

theorem dones_cons {α : Type} (e : SSEEvent α) (l : List (SSEEvent α)) :
    dones (e :: l) = dones l + (if isDoneE e = true then 1 else 0) := by
  simp [dones, List.countP_cons]

theorem errs_cons {α : Type} (e : SSEEvent α) (l : List (SSEEvent α)) :
    errs (e :: l) = errs l + (if isErrE e = true then 1 else 0) := by
  simp [errs, List.countP_cons]

theorem ocGo_eq_act_err (env : OCEnv) (f iter : Nat) (r : Option String)
    (a : OCAction) (e : String) (hlt : iter < maxIterations)
    (hab : env.abort iter = false) (hsc : env.script iter = OCTurn.act r a)
    (hx : (ocExecuteAction a env.scale env.beh).2 = Except.error e) :
    ocGo env (f + 1) iter =
      reasonEvts r ++ [SSEEvent.action a, SSEEvent.error (ocCatchMsg env.modelId)] := by
  rw [ocGo_eq_act env f iter r a hlt hab hsc, hx]

theorem ocGo_eq_act_shotErr (env : OCEnv) (f iter : Nat) (r : Option String)
    (a : OCAction) (e : String) (hlt : iter < maxIterations)
    (hab : env.abort iter = false) (hsc : env.script iter = OCTurn.act r a)
    (hx : (ocExecuteAction a env.scale env.beh).2 = Except.ok ())
    (hsh : env.shots iter = Except.error e) :
    ocGo env (f + 1) iter =
      reasonEvts r ++
        [SSEEvent.action a, SSEEvent.actionCompleted,
          SSEEvent.error (ocCatchMsg env.modelId)] := by
  rw [ocGo_eq_act env f iter r a hlt hab hsc, hx, hsh]

theorem ocGo_eq_act_ok (env : OCEnv) (f iter : Nat) (r : Option String)
    (a : OCAction) (s : String) (hlt : iter < maxIterations)
    (hab : env.abort iter = false) (hsc : env.script iter = OCTurn.act r a)
    (hx : (ocExecuteAction a env.scale env.beh).2 = Except.ok ())
    (hsh : env.shots iter = Except.ok s) :
    ocGo env (f + 1) iter =
      reasonEvts r ++
        SSEEvent.action a :: SSEEvent.actionCompleted :: ocGo env f (iter + 1) := by
  rw [ocGo_eq_act env f iter r a hlt hab hsc, hx, hsh]

theorem okSeq_ocGo (env : OCEnv)
    (hs49 : ∀ r c, env.script (maxIterations - 1) ≠ OCTurn.finishTurn r c) :
    ∀ (fuel iter : Nat), fuel + iter = maxIterations →
      okSeq (ocGo env fuel iter) = true := by
  intro fuel
  induction fuel with
  | zero => intro iter h; exact okSeq_ocPost iter
  | succ f ih =>
    intro iter h
    have hlt : iter < maxIterations := by omega
    by_cases hab : env.abort iter
    · rw [ocGo_eq_abort env f iter hlt hab]; rfl
    · have hab2 : env.abort iter = false := by simpa using hab
      cases hsc : env.script iter with
      | apiError m => rw [ocGo_eq_apiError env f iter m hlt hab2 hsc]; rfl
      | parseFail content =>
        rw [ocGo_eq_parseFail env f iter content hlt hab2 hsc,
          okSeq_reasoning]
        exact ih (iter + 1) (by omega)
      | finishTurn r content =>
        have hne : iter ≠ maxIterations - 1 := by
          intro he; exact hs49 r content (he ▸ hsc)
        have hpost : ocPost (iter + 1) = [] := by
          unfold ocPost
          rw [if_neg (by unfold maxIterations at *; omega)]
        rw [ocGo_eq_finishTurn env f iter r content hlt hab2 hsc, hpost,
          List.append_nil, okSeq_append _ _ (dones_reasonEvts r),
          okSeq_reasoning, okSeq_done]
        rfl
      | act r a =>
        cases hx : (ocExecuteAction a env.scale env.beh).2 with
        | error e =>
          rw [ocGo_eq_act_err env f iter r a e hlt hab2 hsc hx,
            okSeq_append _ _ (dones_reasonEvts r)]
          rfl
        | ok u =>
          cases u
          cases hsh : env.shots iter with
          | error e =>
            rw [ocGo_eq_act_shotErr env f iter r a e hlt hab2 hsc hx hsh,
              okSeq_append _ _ (dones_reasonEvts r)]
            rfl
          | ok s =>
            rw [ocGo_eq_act_ok env f iter r a s hlt hab2 hsc hx hsh,
              okSeq_append _ _ (dones_reasonEvts r), okSeq_action,
              okSeq_completed]
            exact ih (iter + 1) (by omega)

theorem acts_append {α : Type} (l1 l2 : List (SSEEvent α)) :
    acts (l1 ++ l2) = acts l1 + acts l2 := by
  simp [acts, List.countP_append]

theorem dones_append {α : Type} (l1 l2 : List (SSEEvent α)) :
    dones (l1 ++ l2) = dones l1 + dones l2 := by
  simp [dones, List.countP_append]

theorem errs_append {α : Type} (l1 l2 : List (SSEEvent α)) :
    errs (l1 ++ l2) = errs l1 + errs l2 := by
  simp [errs, List.countP_append]

theorem ocGo_eq_post (env : OCEnv) (f iter : Nat) (hge : ¬ iter < maxIterations) :
    ocGo env (f + 1) iter = ocPost iter := by
  rw [ocGo, if_neg hge]

theorem acts_ocGo_le (env : OCEnv) :
    ∀ (fuel iter : Nat), acts (ocGo env fuel iter) ≤ fuel := by
  intro fuel
  induction fuel with
  | zero => intro iter; rw [ocGo_zero]; rw [acts_ocPost]
  | succ f ih =>
    intro iter
    by_cases hlt : iter < maxIterations
    · by_cases hab : env.abort iter
      · rw [ocGo_eq_abort env f iter hlt hab]
        simp [acts_cons, acts_nil, isActE]
      · have hab2 : env.abort iter = false := by simpa using hab
        cases hsc : env.script iter with
        | apiError m =>
          rw [ocGo_eq_apiError env f iter m hlt hab2 hsc]
          simp [acts_cons, acts_nil, isActE]
        | parseFail content =>
          rw [ocGo_eq_parseFail env f iter content hlt hab2 hsc, acts_cons]
          have := ih (iter + 1)
          simp [isActE]
          omega
        | finishTurn r content =>
          rw [ocGo_eq_finishTurn env f iter r content hlt hab2 hsc]
          simp [acts_append, acts_reasonEvts, acts_ocPost, acts_cons, acts_nil, isActE]
        | act r a =>
          cases hx : (ocExecuteAction a env.scale env.beh).2 with
          | error e =>
            rw [ocGo_eq_act_err env f iter r a e hlt hab2 hsc hx]
            simp [acts_append, acts_reasonEvts, acts_cons, acts_nil, isActE]
          | ok u =>
            cases u
            cases hsh : env.shots iter with
            | error e =>
              rw [ocGo_eq_act_shotErr env f iter r a e hlt hab2 hsc hx hsh]
              simp [acts_append, acts_reasonEvts, acts_cons, acts_nil, isActE]
            | ok s =>
              rw [ocGo_eq_act_ok env f iter r a s hlt hab2 hsc hx hsh]
              have := ih (iter + 1)
              simp [acts_append, acts_reasonEvts, acts_cons, isActE]
              omega
    · rw [ocGo_eq_post env f iter hlt, acts_ocPost]
      omega

theorem ocGo_exact (env : OCEnv) (hab : ∀ i, env.abort i = false)
    (hact : ∀ i, i < maxIterations → ocActStep env i) :
    ∀ (fuel iter : Nat), fuel + iter = maxIterations →
      acts (ocGo env fuel iter) = fuel ∧ dones (ocGo env fuel iter) = 1 ∧
        okSeq (ocGo env fuel iter) = true := by
  intro fuel
  induction fuel with
  | zero =>
    intro iter h
    rw [ocGo_zero]
    exact ⟨acts_ocPost iter, dones_ocPost_eq_one (by omega), okSeq_ocPost iter⟩
  | succ f ih =>
    intro iter h
    have hlt : iter < maxIterations := by omega
    obtain ⟨r, a, hsc, hx, s, hsh⟩ := hact iter hlt
    obtain ⟨ihA, ihD, ihS⟩ := ih (iter + 1) (by omega)
    rw [ocGo_eq_act_ok env f iter r a s hlt (hab iter) hsc hx hsh]
    refine ⟨?_, ?_, ?_⟩
    · simp [acts_append, acts_reasonEvts, acts_cons, isActE, ihA]
    · simp [dones_append, dones_reasonEvts, dones_cons, isDoneE, ihD]
    · rw [okSeq_append _ _ (dones_reasonEvts r), okSeq_action, okSeq_completed]
      exact ihS

theorem ocGo_cancel (env : OCEnv) :
    ∀ (d f iter : Nat), f + iter = maxIterations → d < f →
      (∀ j, iter ≤ j → j < iter + d → env.abort j = false ∧ ocContinues env j) →
      env.abort (iter + d) = true →
      ∃ E, ocGo env f iter = E ++ [SSEEvent.done (some stopMsg)] ∧
        dones E = 0 ∧ errs E = 0 := by
  intro d
  induction d with
  | zero =>
    intro f iter hfi hd hpre hab
    obtain ⟨g, rfl⟩ : ∃ g, f = g + 1 := ⟨f - 1, by omega⟩
    have hlt : iter < maxIterations := by omega
    have hab2 : env.abort iter = true := by simpa using hab
    rw [ocGo_eq_abort env g iter hlt hab2]
    exact ⟨[], rfl, rfl, rfl⟩
  | succ d ihd =>
    intro f iter hfi hd hpre hab
    obtain ⟨g, rfl⟩ : ∃ g, f = g + 1 := ⟨f - 1, by omega⟩
    have hlt : iter < maxIterations := by omega
    have h0 := hpre iter (Nat.le_refl iter) (by omega)
    have hshift : iter + (d + 1) = (iter + 1) + d := by omega
    rw [hshift] at hab
    have hpre2 : ∀ j, iter + 1 ≤ j → j < (iter + 1) + d →
        env.abort j = false ∧ ocContinues env j := by
      intro j h1 h2
      exact hpre j (by omega) (by omega)
    obtain ⟨E, hE, hD, hR⟩ := ihd g (iter + 1) (by omega) (by omega) hpre2 hab
    rcases h0.2 with ⟨c, hsc⟩ | ⟨r, a, hsc, hx, s, hsh⟩
    · refine ⟨SSEEvent.reasoning c :: E, ?_, ?_, ?_⟩
      · rw [ocGo_eq_parseFail env g iter c hlt h0.1 hsc, hE]
        rfl
      · rw [dones_cons]; simp [isDoneE, hD]
      · rw [errs_cons]; simp [isErrE, hR]
    · refine ⟨reasonEvts r ++ SSEEvent.action a :: SSEEvent.actionCompleted :: E,
        ?_, ?_, ?_⟩
      · rw [ocGo_eq_act_ok env g iter r a s hlt h0.1 hsc hx hsh, hE]
        simp
      · simp [dones_append, dones_reasonEvts, dones_cons, isDoneE, hD]
      · simp [errs_append, errs_reasonEvts, errs_cons, isErrE, hR]

/-- C1: the spec requires a `CoordinatesOutOfBounds` rejection, distinct
from `CoordinatesInvalid`, with no remote desktop call, for any
coordinate-requiring action outside the model viewport; the code has no
bounds check at all: a click at model-space (5000, 20) is scaled and
dispatched to the desktop and reports success, and the E2B tool's
`move_mouse` at (5000, 20) — the exact input of the repository's own
test expecting `action_error "coordinates out of bounds"` with no
`moveMouse` call — issues the `moveMouse` call and returns
`action_done`. -/
theorem c1_oob_coordinates_executed :
    executeComputerActionAux (clickAt 5000 20) dblScale behOk (Except.ok "QUJD") =
      ([DCall.leftClick 10000 40],
        ⟨true, some "data:image/png;base64,QUJD", none⟩) ∧
    e2bExecute (e2bMoveMouse 5000 20) idScale behOk (Except.ok "QUJD") =
      ([DCall.moveMouse 5000 20],
        Except.ok (E2BResult.action_done "move_mouse" (some 5000) (some 20) none)) :=
  ⟨rfl, rfl⟩

/-- C7 counterexample: when the desktop call of a click throws with
message `boom`, the executor returns `{ success: false, error: "boom" }`
— the error outcome does not carry the action tag `click` (the tag is
not a substring of the message), contrary to the claim. -/
theorem c7_error_tag_counterexample :
    executeComputerActionAux (clickAt 1 2) dblScale behBoom (Except.ok "QUJD") =
      ([DCall.leftClick 2 4], ⟨false, none, some "boom"⟩) ∧
    hasSub ("click".toList) ("boom".toList) = false :=
  ⟨rfl, rfl⟩

/-- C7 amended: the executor never lets a throw escape: a `switch` body
that throws with message `m` yields exactly
`{ success: false, error: m }` (without the action tag), and every
unsuccessful result carries an error message. -/
theorem c7_exception_wrapped_amended :
    (∀ (p : ComputerToolParams) (scale : Int × Int → Int × Int)
       (beh : DCall → Except String Unit) (shot : Except String String)
       (tr : List DCall) (m : String),
      ctSwitch p scale beh = (tr, Except.error m) →
      executeComputerActionAux p scale beh shot = (tr, ⟨false, none, some m⟩)) ∧
    (∀ (p : ComputerToolParams) (scale : Int × Int → Int × Int)
       (beh : DCall → Except String Unit) (shot : Except String String),
      (executeComputerAction p scale beh shot).success = false →
      (executeComputerAction p scale beh shot).error ≠ none) := by
  constructor
  · intro p scale beh shot tr m h
    unfold executeComputerActionAux
    rw [h]
  · intro p scale beh shot
    unfold executeComputerAction executeComputerActionAux
    rcases hct : ctSwitch p scale beh with ⟨tr, ex⟩
    rcases ex with m | sr
    · simp
    · rcases sr with _ | m
      · rcases shot with m | b64 <;> simp
      · simp

/-- C7 amended, witness: a click whose desktop call throws `boom`
produces the wrapped error result. -/
theorem c7_exception_wrapped_amended_witness :
    executeComputerActionAux (clickAt 1 2) idScale behBoom (Except.ok "QUJD") =
      ([DCall.leftClick 1 2], ⟨false, none, some "boom"⟩) :=
  c7_exception_wrapped_amended.1 (clickAt 1 2) idScale behBoom (Except.ok "QUJD")
    [DCall.leftClick 1 2] "boom" rfl

/-- C8: a drag with a missing path or fewer than two path points fails
with exactly "Drag requires at least 2 path points" and issues no
desktop call; a drag with two or more points issues exactly one desktop
`drag` call whose endpoints are the first and the last path point, each
scaled independently. -/
theorem c8_drag_endpoints :
    (∀ (p : ComputerToolParams) (scale : Int × Int → Int × Int)
       (beh : DCall → Except String Unit) (shot : Except String String),
      p.action = "drag" →
      (p.path = none ∨ ∃ l, p.path = some l ∧ l.length < 2) →
      executeComputerActionAux p scale beh shot =
        ([], ⟨false, none, some "Drag requires at least 2 path points"⟩)) ∧
    (∀ (p : ComputerToolParams) (scale : Int × Int → Int × Int)
       (beh : DCall → Except String Unit) (shot : Except String String)
       (l : List Point),
      p.action = "drag" → p.path = some l → 2 ≤ l.length →
      (executeComputerActionAux p scale beh shot).1 =
        [DCall.drag (scale ((l.headD ⟨0, 0⟩).x, (l.headD ⟨0, 0⟩).y))
          (scale ((l.getLastD ⟨0, 0⟩).x, (l.getLastD ⟨0, 0⟩).y))]) := by
  constructor
  · intro p scale beh shot ha hp
    have hswitch : ctSwitch p scale beh =
        ([], Except.ok (SwitchRes.earlyError "Drag requires at least 2 path points")) := by
      rcases hp with hp | ⟨l, hp, hl⟩
      · simp [ctSwitch, ha, hp]
      · simp [ctSwitch, ha, hp, hl]
    unfold executeComputerActionAux
    rw [hswitch]
  · intro p scale beh shot l ha hp hl
    have hswitch : ctSwitch p scale beh =
        oneCall beh (DCall.drag (scale ((l.headD ⟨0, 0⟩).x, (l.headD ⟨0, 0⟩).y))
          (scale ((l.getLastD ⟨0, 0⟩).x, (l.getLastD ⟨0, 0⟩).y))) := by
      simp [ctSwitch, ha, hp]
      omega
    unfold executeComputerActionAux
    rw [hswitch]
    unfold oneCall
    rcases beh (DCall.drag (scale ((l.headD ⟨0, 0⟩).x, (l.headD ⟨0, 0⟩).y))
      (scale ((l.getLastD ⟨0, 0⟩).x, (l.getLastD ⟨0, 0⟩).y))) with m | u
    · rfl
    · rcases shot with m | b64 <;> rfl

/-- C8 witness: a one-point drag is rejected with no desktop call, and a
three-point drag with the doubling scaler issues the single call
`drag((2, 4), (40, 60))` from its first and last points. -/
theorem c8_drag_endpoints_witness :
    executeComputerActionAux (dragParams [⟨1, 2⟩]) dblScale behOk (Except.ok "QUJD") =
      ([], ⟨false, none, some "Drag requires at least 2 path points"⟩) ∧
    (executeComputerActionAux (dragParams [⟨1, 2⟩, ⟨3, 4⟩, ⟨20, 30⟩]) dblScale behOk
        (Except.ok "QUJD")).1 = [DCall.drag (2, 4) (40, 60)] := by
  constructor
  · exact c8_drag_endpoints.1 (dragParams [⟨1, 2⟩]) dblScale behOk (Except.ok "QUJD")
      rfl (Or.inr ⟨[⟨1, 2⟩], rfl, by decide⟩)
  · have h := c8_drag_endpoints.2 (dragParams [⟨1, 2⟩, ⟨3, 4⟩, ⟨20, 30⟩]) dblScale behOk
      (Except.ok "QUJD") [⟨1, 2⟩, ⟨3, 4⟩, ⟨20, 30⟩] rfl rfl (by decide)
    simpa using h

/-- C10: for every action and every collaborator behaviour, a
successful result carries the freshly captured screenshot as a
`data:image/png;base64` URL and no error, and an unsuccessful result
carries an error message and no screenshot. -/
theorem c10_screenshot_result (p : ComputerToolParams)
    (scale : Int × Int → Int × Int) (beh : DCall → Except String Unit)
    (shot : Except String String) :
    ((executeComputerAction p scale beh shot).success = true →
      ∃ b64, shot = Except.ok b64 ∧
        (executeComputerAction p scale beh shot).screenshot =
          some ("data:image/png;base64," ++ b64) ∧
        (executeComputerAction p scale beh shot).error = none) ∧
    ((executeComputerAction p scale beh shot).success = false →
      (executeComputerAction p scale beh shot).screenshot = none ∧
      (executeComputerAction p scale beh shot).error ≠ none) := by
  unfold executeComputerAction executeComputerActionAux
  rcases hct : ctSwitch p scale beh with ⟨tr, ex⟩
  rcases ex with m | sr
  · simp
  · rcases sr with _ | m
    · rcases shot with m | b64 <;> simp
    · simp

/-- C10 witness: the no-op screenshot action succeeds and returns the
captured image as a data URL. -/
theorem c10_screenshot_result_witness :
    (executeComputerAction screenshotParams idScale behOk (Except.ok "QUJD")).screenshot =
      some "data:image/png;base64,QUJD" := by
  have h := (c10_screenshot_result screenshotParams idScale behOk (Except.ok "QUJD")).1 rfl
  obtain ⟨b64, hb, hs, _⟩ := h
  have hb2 : b64 = "QUJD" := by
    injection hb with h2
    exact h2.symm
  rw [hs, hb2]
  rfl

/-- C6: any provider configuration that fails validation makes the
ai-sdk stream yield exactly one `error` event carrying the validation
message — before any provider call, screenshot or action, and without
throwing across the generator boundary — and the custom-provider
configuration with no base URL fails validation with exactly
"Base URL is required for custom providers". -/
theorem c6_config_validation :
    (∀ (cfg : ProviderConfig) (createErr : Option String)
       (initShot : Except String String) (nativeCU : Bool)
       (nativeEvents : List AIEv) (chunks : List AIChunk)
       (abort : Nat → Bool) (msg : String),
      validateProviderConfig cfg = some msg →
      aisdkStream cfg createErr initShot nativeCU nativeEvents chunks abort =
        [SSEEvent.error msg] ∧
      acts (aisdkStream cfg createErr initShot nativeCU nativeEvents chunks abort) = 0) ∧
    validateProviderConfig cfgCustomNoBase =
      some "Base URL is required for custom providers" := by
  constructor
  · intro cfg createErr initShot nativeCU nativeEvents chunks abort msg h
    unfold aisdkStream
    rw [h]
    exact ⟨rfl, rfl⟩
  · rfl

/-- C6 witness: a custom-provider configuration with no base URL
produces exactly the single validation error event and zero action
events. -/
theorem c6_config_validation_witness :
    aisdkStream cfgCustomNoBase none (Except.ok "S0") false [] [] noAbort =
      [SSEEvent.error "Base URL is required for custom providers"] :=
  (c6_config_validation.1 cfgCustomNoBase none (Except.ok "S0") false [] [] noAbort
    "Base URL is required for custom providers" rfl).1

/-- C9 counterexample: in the openai-compatible session whose first
action has the unknown tag `fly`, the executor silently skips the action
(no throw), the stream still emits `actionCompleted` for it, and no
error event is emitted — the unknown tag is not rejected. -/
theorem c9_unknown_tag_counterexample :
    ocStream envC9 =
      [SSEEvent.action (ocActionOfType "fly"), SSEEvent.actionCompleted,
        SSEEvent.reasoning "done", SSEEvent.done none] ∧
    errs (ocStream envC9) = 0 :=
  ⟨rfl, rfl⟩

/-- C9 amended: the unified computer tool rejects a tag outside its
closed vocabulary with `Unknown action: tag` and issues no desktop
call, but the openai-compatible executor's default branch only logs a
warning: it issues no call and returns normally, so the surrounding
loop still reports completion. -/
theorem c9_unknown_tag_amended :
    (∀ (p : ComputerToolParams) (scale : Int × Int → Int × Int)
       (beh : DCall → Except String Unit) (shot : Except String String),
      ¬ p.action ∈ ctActionTags →
      executeComputerActionAux p scale beh shot =
        ([], ⟨false, none, some ("Unknown action: " ++ p.action)⟩)) ∧
    (∀ (a : OCAction)
       (scale : Option Int × Option Int → Option Int × Option Int)
       (beh : OCCall → Except String Unit),
      ¬ a.type ∈ ocActionTags →
      ocExecuteAction a scale beh = ([], Except.ok ())) := by
  constructor
  · intro p scale beh shot h
    simp only [ctActionTags, List.mem_cons, List.not_mem_nil, or_false,
      not_or] at h
    obtain ⟨h1, h2, h3, h4, h5, h6, h7, h8, h9⟩ := h
    have hswitch : ctSwitch p scale beh =
        ([], Except.ok (SwitchRes.earlyError ("Unknown action: " ++ p.action))) := by
      simp [ctSwitch, h1, h2, h3, h4, h5, h6, h7, h8, h9]
    unfold executeComputerActionAux
    rw [hswitch]
  · intro a scale beh h
    simp only [ocActionTags, List.mem_cons, List.not_mem_nil, or_false,
      not_or] at h
    obtain ⟨h1, h2, h3, h4, h5, h6, h7, h8, h9⟩ := h
    simp [ocExecuteAction, h1, h2, h3, h4, h5, h6, h7, h8, h9]

/-- C9 amended, witness: the tag `fly` is unknown to both executors:
the unified tool rejects it with an error outcome and no call, and the
openai-compatible executor skips it without error. -/
theorem c9_unknown_tag_amended_witness :
    executeComputerActionAux
        ⟨"fly", none, none, none, none, none, none, none, none, none⟩
        idScale behOk (Except.ok "QUJD") =
      ([], ⟨false, none, some "Unknown action: fly"⟩) ∧
    ocExecuteAction (ocActionOfType "fly") ocIdScale ocBehOk = ([], Except.ok ()) :=
  ⟨c9_unknown_tag_amended.1
      ⟨"fly", none, none, none, none, none, none, none, none, none⟩
      idScale behOk (Except.ok "QUJD") (by decide),
    c9_unknown_tag_amended.2 (ocActionOfType "fly") ocIdScale ocBehOk (by decide)⟩

/-- C3 counterexample: in the ai-sdk tool-calling loop, a tool call
whose execution fails (the tool result carries `success: false` and an
error message) is still followed by `actionCompleted`, and no `error`
event is emitted — `actionCompleted` is not conditional on success and
the failure is not surfaced as an `Error` event. -/
theorem c3_failed_action_counterexample :
    aiLoop noAbort chunksC3 0 =
      [SSEEvent.action pC3, SSEEvent.actionCompleted, SSEEvent.done none] ∧
    errs (aiLoop noAbort chunksC3 0) = 0 ∧ failOut.success = false :=
  ⟨rfl, rfl, rfl⟩

/-- C2 counterexample: in the openai-compatible session that acts for 49
passes and signals completion on the 50th, budget-exhausting pass, the
stream emits two `done` events and the first is followed by further
events — `done` is neither unique nor terminal. -/
theorem c2_double_done_counterexample :
    okSeq (ocStream envC2) = false ∧ dones (ocStream envC2) = 2 :=
  ⟨rfl, rfl⟩

/-- C2 amended: `done` is unique and terminal in every openai-compatible
session in which the model does not signal completion on the pass that
exhausts the 50-step budget (on that boundary pass a second
reasoning/`done` pair follows, see the counterexample), and
unconditionally in the ai-sdk tool-calling loop; error-terminated runs
may end without any `done`. -/
theorem c2_done_terminal_amended :
    (∀ env : OCEnv,
      (∀ r c, env.script (maxIterations - 1) ≠ OCTurn.finishTurn r c) →
      okSeq (ocStream env) = true) ∧
    (∀ (abort : Nat → Bool) (chunks : List AIChunk) (i : Nat),
      okSeq (aiLoop abort chunks i) = true) := by
  constructor
  · intro env h
    unfold ocStream
    rcases hi : env.initShot with m | s
    · rfl
    · exact okSeq_ocGo env h maxIterations 0 rfl
  · exact aiLoop_okSeq

/-- C2 amended, witness: the always-acting session emits a unique
terminal `done`. -/
theorem c2_done_terminal_amended_witness : okSeq (ocStream envC4) = true :=
  c2_done_terminal_amended.1 envC4 (fun _ _ h => OCTurn.noConfusion h)

/-- C3 amended: in the ai-sdk tool-calling loop every `action` event is
immediately followed by `actionCompleted` whatever the execution
outcome, every tool call the loop reaches produces its action event (an
uncancelled run emits exactly one action per tool call before the
finish), and in the JSON-fallback loop a throwing execution instead
yields the action followed by a single `error` event that ends the
session. -/
theorem c3_action_pairing_amended :
    (∀ (abort : Nat → Bool) (chunks : List AIChunk) (i : Nat),
      paired (aiLoop abort chunks i) = true) ∧
    (∀ (chunks : List AIChunk) (i : Nat),
      acts (aiLoop noAbort chunks i) = tcCount chunks) ∧
    (∀ (env : OCEnv) (f iter : Nat) (r : Option String) (a : OCAction)
       (e : String),
      iter < maxIterations → env.abort iter = false →
      env.script iter = OCTurn.act r a →
      (ocExecuteAction a env.scale env.beh).2 = Except.error e →
      ocGo env (f + 1) iter =
        reasonEvts r ++
          [SSEEvent.action a, SSEEvent.error (ocCatchMsg env.modelId)]) :=
  ⟨aiLoop_paired, aiLoop_acts_noAbort,
    fun env f iter r a e hlt hab hsc hx =>
      ocGo_eq_act_err env f iter r a e hlt hab hsc hx⟩

/-- C3 amended, witness: a session whose first desktop call throws emits
the action followed by the catch error and nothing else. -/
theorem c3_action_pairing_amended_witness :
    ocGo envC3w 50 0 =
      reasonEvts none ++
        [SSEEvent.action ocClickA, SSEEvent.error (ocCatchMsg "m")] :=
  c3_action_pairing_amended.2.2 envC3w 49 0 none ocClickA "io" (by decide)
    rfl rfl rfl

/-- C4: every openai-compatible session emits at most 50 action events;
a session in which the model always proposes further actions (and no
collaborator fails) emits exactly 50 actions and then exactly one
terminal `done`; and the ai-sdk loop emits at most one action per tool
call of the vendor stream (whose step count the streamer caps by
passing `stepCountIs(50)` to the SDK). -/
theorem c4_step_budget :
    (∀ env : OCEnv, acts (ocStream env) ≤ maxIterations) ∧
    (∀ env : OCEnv, (∀ i, env.abort i = false) →
      (∀ i, i < maxIterations → ocActStep env i) →
      (∃ s, env.initShot = Except.ok s) →
      acts (ocStream env) = maxIterations ∧ dones (ocStream env) = 1 ∧
        okSeq (ocStream env) = true) ∧
    (∀ (abort : Nat → Bool) (chunks : List AIChunk) (i : Nat),
      acts (aiLoop abort chunks i) ≤ tcCount chunks) := by
  refine ⟨?_, ?_, aiLoop_acts_le⟩
  · intro env
    unfold ocStream
    rcases hi : env.initShot with m | s
    · simp [acts_cons, acts_nil, isActE]
    · exact acts_ocGo_le env maxIterations 0
  · intro env hab hact hinit
    obtain ⟨s0, hs0⟩ := hinit
    unfold ocStream
    rw [hs0]
    exact ocGo_exact env hab hact maxIterations 0 rfl

/-- C4 witness: the always-acting session emits exactly 50 actions and
one `done`. -/
theorem c4_step_budget_witness :
    acts (ocStream envC4) = maxIterations ∧ dones (ocStream envC4) = 1 := by
  have h := c4_step_budget.2.1 envC4 (fun _ => rfl)
    (fun i _ => ⟨none, actScreenshot, rfl, rfl, "S0", rfl⟩) ⟨"S0", rfl⟩
  exact ⟨h.1, h.2.1⟩

/-- C5: in either loop, once cancellation is observed the stream ends
with exactly one `done` carrying the stopped-by-caller message: the
events before the observation contain no `done` (and, in the
openai-compatible loop, no `error`), and nothing — no `action`, no
`error` — follows it. -/
theorem c5_cancellation :
    (∀ (env : OCEnv) (k : Nat), k < maxIterations →
      (∃ s, env.initShot = Except.ok s) →
      (∀ j, j < k → env.abort j = false ∧ ocContinues env j) →
      env.abort k = true →
      ∃ E, ocStream env = E ++ [SSEEvent.done (some stopMsg)] ∧
        dones E = 0 ∧ errs E = 0) ∧
    (∀ (abort : Nat → Bool) (pre : List AIChunk) (c : AIChunk)
       (post : List AIChunk),
      (∀ j, j < pre.length → abort j = false) →
      (∀ ch ∈ pre, ch ≠ AIChunk.finish) →
      abort pre.length = true →
      ∃ E, aiLoop abort (pre ++ c :: post) 0 =
        E ++ [SSEEvent.done (some stopMsg)] ∧ dones E = 0) := by
  constructor
  · intro env k hk hinit hpre hab
    obtain ⟨s0, hs0⟩ := hinit
    unfold ocStream
    rw [hs0]
    refine ocGo_cancel env k maxIterations 0 rfl hk ?_ ?_
    · intro j _ h2
      exact hpre j (by omega)
    · simpa using hab
  · intro abort pre c post hpre hnf hab
    refine aiLoop_cancel abort pre c post 0 ?_ hnf ?_
    · intro j hj
      simpa using hpre j hj
    · simpa using hab

/-- C5 witness: the session cancelled at the second top-of-loop check
ends with the single stop `done` and no prior `done` or `error`. -/
theorem c5_cancellation_witness :
    ∃ E, ocStream envC5 = E ++ [SSEEvent.done (some stopMsg)] ∧
      dones E = 0 ∧ errs E = 0 := by
  refine c5_cancellation.1 envC5 1 (by decide) ⟨"S0", rfl⟩ ?_ rfl
  intro j hj
  have hj0 : j = 0 := by omega
  subst hj0
  exact ⟨rfl, Or.inr ⟨none, actScreenshot, rfl, rfl, "S0", rfl⟩⟩
